import Mathlib

/-!
Verification of the Nephelios deployment orchestrator against its
natural-language specification.

The development shallowly embeds the relevant Rust source files:

- `src/services/helpers/traefik_helper.rs` (the manifest store:
  `verif_app`, `add_to_deploy`, `remove_app_compose`, `update_app_replicas`);
- `src/services/helpers/github_helper.rs` (`modify_github_url`,
  `clone_repo`, `create_temp_dir`);
- `src/routes.rs` (`handle_create_app`, the asynchronous deployment job);
- `src/services/websocket.rs` (the status-forwarding loop of
  `handle_ws_connection`) together with the broadcast channel of capacity 32
  created in `src/main.rs`.

Documents and names are modelled as lists of characters (`Chars`); file
states as `Option Chars` (`none` = the file does not exist).  External
collaborators (git, the Docker daemon, the stack reconciler) are modelled
by explicit outcome parameters, since only their success or failure is
observable to the embedded control flow.
-/

/-- Documents, names and URLs are lists of characters. -/
abbrev Chars := List Char

deriving instance DecidableEq for Except

/-- Convert a string literal to its character list. -/
def S (s : String) : Chars := s.data

/-- Leading count of characters satisfying `p` (used for whitespace and
digit runs of the regex embedding). -/
def countWhile (p : Char → Bool) : Chars → Nat
  | [] => 0
  | c :: t => if p c then countWhile p t + 1 else 0

/-- First index at which `pat` occurs in a list, mirroring Rust
`str::find` (leftmost occurrence; `some 0` on the empty pattern). -/
def firstOccur? (pat : Chars) : Chars → Option Nat
  | [] => if pat.isPrefixOf ([] : Chars) then some 0 else none
  | c :: t =>
      if pat.isPrefixOf (c :: t) then some 0
      else (firstOccur? pat t).map (fun n => n + 1)

/-- Rust `str::contains`: substring containment on the raw text. -/
def strContains (s pat : Chars) : Bool := (firstOccur? pat s).isSome

/-- Application metadata, from `AppMetadata` in `docker_helper.rs`.
`created_at` is the wall-clock time, passed in as a parameter. -/
structure AppMetadata where
  app_name : Chars
  app_type : Chars
  github_url : Chars
  domain : Chars
  created_at : Chars
deriving DecidableEq

/-- `AppMetadata::new`: derives `domain = name ++ ".localhost"`;
`created_at` is the current time (a parameter here). -/
def AppMetadata.new (name type url now : Chars) : AppMetadata :=
  ⟨name, type, url, name ++ S ".localhost", now⟩

/-- The service block rendered by `add_to_deploy` in `traefik_helper.rs`
(the `format!` literal with `service = image = app` and `replicas = 1`,
exactly as in the source). -/
def renderBlock (app port : Chars) (md : AppMetadata) : Chars :=
  S "  " ++ app ++ S ":\n" ++
  S "    image: registry:5000/" ++ app ++ S ":latest\n" ++
  S "    deploy:\n" ++
  S "        mode: replicated\n" ++
  S "        replicas: 1\n" ++
  S "        resources:\n" ++
  S "            limits:\n" ++
  S "                cpus: \"1.5\"      # Maximum 1.5 CPU cores\n" ++
  S "                memory: 1G       # Maximum 1GB RAM\n" ++
  S "            reservations:\n" ++
  S "                cpus: \"0.5\"      # Reserve at least 0.5 CPU cores\n" ++
  S "                memory: 256M     # Reserve at least 256MB RAM\n" ++
  S "        labels:\n" ++
  S "          - \"traefik.enable=true\"\n" ++
  S "          - \"traefik.http.routers." ++ app ++ S ".rule=Host(`" ++ app ++
    S ".localhost`)\"\n" ++
  S "          - \"traefik.http.routers." ++ app ++ S ".entrypoints=web,websecure\"\n" ++
  S "          - \"traefik.http.routers." ++ app ++ S ".tls.certresolver=myresolver\"\n" ++
  S "          - \"traefik.http.services." ++ app ++
    S ".loadbalancer.server.port=" ++ port ++ S "\"\n" ++
  S "          - \"com.myapp.name=" ++ app ++ S "\"\n" ++
  S "          - \"com.myapp.image=" ++ app ++ S ":latest\"\n" ++
  S "          - \"com.myapp.type=" ++ md.app_type ++ S "\"\n" ++
  S "          - \"com.myapp.github_url=" ++ md.github_url ++ S "\"\n" ++
  S "          - \"com.myapp.domain=" ++ md.domain ++ S "\"\n" ++
  S "          - \"com.myapp.created_at=" ++ md.created_at ++ S "\"\n" ++
  S "    networks:\n" ++
  S "        - nephelios_overlay\n" ++
  S "\n"

/-- `verif_app` from `traefik_helper.rs`: opens `./nephelios.yml`
(`none` = I/O error) and answers `1` iff the raw document CONTAINS the
name as a substring (`content.contains(app)`), else `0`. -/
def verif_app (file : Option Chars) (app : Chars) : Except String Nat :=
  match file with
  | none => Except.error "No such file"
  | some content => Except.ok (if strContains content app then 1 else 0)

/-- `add_to_deploy` from `traefik_helper.rs`: opens the manifest in
append-plus-create mode and appends the rendered block (a single
`write_all`). -/
def add_to_deploy (file : Option Chars) (app port : Chars) (md : AppMetadata) :
    Option Chars :=
  some ((file.getD []) ++ renderBlock app port md)

/-- A line starts with two spaces (`line.starts_with("  ")`). -/
def twoSpace (l : Chars) : Bool := (S "  ").isPrefixOf l

/-- The block-header test of `remove_app_compose`:
`line.starts_with(&format!("  {}:", app_name))`. -/
def headerOf (name : Chars) : Chars := ' ' :: ' ' :: (name ++ [':'])

/-- Strip one trailing carriage return from an accumulated (reversed)
line, as Rust `str::lines` does for a `\r\n` ending. -/
def emitLine (cur : Chars) : Chars :=
  if cur.head? = some '\r' then cur.tail.reverse else cur.reverse

/-- Worker for `rustLines`: `cur` is the current line, reversed. -/
def linesAux : Chars → Chars → List Chars
  | cur, [] => if cur.isEmpty then [] else [cur.reverse]
  | cur, c :: rest =>
      if c = '\n' then emitLine cur :: linesAux [] rest
      else linesAux (c :: cur) rest

/-- Rust `str::lines`: split at `\n` terminators, strip a `\r` before
each `\n`, no empty final line for a trailing newline. -/
def rustLines (cs : Chars) : List Chars := linesAux [] cs

/-- Rejoin lines, appending `\n` to every line — `remove_app_compose`
pushes `line` then `'\n'` for every kept line. -/
def joinLF : List Chars → Chars
  | [] => []
  | l :: ls => l ++ '\n' :: joinLF ls

/-- The line-scanning loop of `remove_app_compose`, with its `in_service`
flag.  Branches in source order:
1. a two-space line while `in_service` is skipped;
2. a line starting `"  name:"` sets `in_service` and is skipped;
3. a line not starting with two spaces clears `in_service`;
4. lines are kept only while `in_service` is false. -/
def removeGo (name : Chars) : Bool → List Chars → List Chars
  | _, [] => []
  | inServ, l :: ls =>
      if twoSpace l && inServ then removeGo name inServ ls
      else if (headerOf name).isPrefixOf l then removeGo name true ls
      else if !(twoSpace l) then l :: removeGo name false ls
      else l :: removeGo name inServ ls

/-- `remove_app_compose` from `traefik_helper.rs`: reads the manifest,
drops the lines of the named block, rewrites the file.  There is no
not-found check: the rewrite happens regardless. -/
def remove_app_compose (name : Chars) (content : Chars) : Chars :=
  joinLF (removeGo name false (rustLines content))

/-!
Embedding of `update_app_replicas` (`traefik_helper.rs`).  The function
checks the file exists, checks `content.contains("{name}:")`, then runs
`Regex::replace_all` with the pattern

  `(?m)^(\s*NAME:\s*(?:\r?\n.*?)*?\breplicas:\s*)(\d+)`

(`NAME` = the escaped application name).  The definitions below embed the
behaviour of that pattern under the regex crate's leftmost-first match
semantics, derived as follows for this particular pattern:

- a match starts at a line-start position `p` (the `(?m)^` anchor);
- `\s*` then the literal `NAME:` — greedy, so the longest all-whitespace
  run `k` with `NAME:` at `p + k` is preferred (`kCandidates`);
- with `q` the position after `NAME:`, the tail
  `\s*(?:\r?\n.*?)*?\breplicas:\s*\d+` matches with `replicas:` at the
  LEAST position `r ≥ q` satisfying: `replicas:` occurs at `r` after a
  word boundary; the gap from `q` to `r` is traversable (`gapOk`: the gap
  is all whitespace — `\s*` alone — or its maximal whitespace run
  contains a `\n` where the lazy `(?:\r?\n.*?)*?` loop can take over,
  `.` never matching `\n`); and the first non-whitespace character after
  `replicas:` is a digit (`\s*\d+`);
- group 2 is the maximal digit run there; `replace_all` rewrites it to
  the new value and resumes scanning at the match end.

Whitespace, word and digit classes are taken at their ASCII meaning
(the documents involved are ASCII).
-/

/-- ASCII whitespace of the regex class `\s`. -/
def isWsChar (c : Char) : Bool :=
  c = ' ' || c = '\t' || c = '\n' || c = '\r' ||
  c = Char.ofNat 11 || c = Char.ofNat 12

/-- ASCII word characters of the regex class `\w` (for `\b`). -/
def isWordChar (c : Char) : Bool := c.isAlphanum || c = '_'

/-- Whitespace run length starting at index `i`. -/
def wsRunAt (cs : Chars) (i : Nat) : Nat := countWhile isWsChar (cs.drop i)

/-- Digit run length starting at index `i`. -/
def digitRunAt (cs : Chars) (i : Nat) : Nat := countWhile Char.isDigit (cs.drop i)

/-- `pat` occurs literally at index `i`. -/
def matchesAt (cs pat : Chars) (i : Nat) : Bool := pat.isPrefixOf (cs.drop i)

/-- `(?m)^`: index 0 or just after a newline. -/
def isLineStart (cs : Chars) (i : Nat) : Bool :=
  i == 0 || cs.get? (i - 1) == some '\n'

/-- `\b` before a word character: the previous character, if any, is not
a word character. -/
def boundaryAt (cs : Chars) (r : Nat) : Bool :=
  match r with
  | 0 => true
  | Nat.succ r0 =>
      match cs.get? r0 with
      | some c => !(isWordChar c)
      | none => true

/-- The gap between the end of `NAME:` (index `q`) and a candidate
`replicas:` (index `r`) is traversable by `\s*(?:\r?\n.*?)*?`: either the
whole gap is whitespace, or the lazy line loop starts at a `\n` inside
the gap's maximal whitespace run and `.*?` segments absorb the rest. -/
def gapOk (cs : Chars) (q r : Nat) : Bool :=
  let g := (cs.drop q).take (r - q)
  let w := countWhile isWsChar g
  (w == g.length) || ((g.take w).contains '\n')

/-- The literal `replicas:` token. -/
def replicasTok : Chars := S "replicas:"

/-- All conditions for the pattern tail to match with `replicas:` at `r`,
given the name header ended at `q`. -/
def replicasCandidate (cs : Chars) (q r : Nat) : Bool :=
  decide (q ≤ r) && matchesAt cs replicasTok r && boundaryAt cs r &&
  gapOk cs q r &&
  decide (1 ≤ digitRunAt cs (r + 9 + wsRunAt cs (r + 9)))

/-- Least admissible `replicas:` position at or after `q` (the lazy
quantifiers select the earliest reachable occurrence). -/
def findR (cs : Chars) (q : Nat) : Option Nat :=
  (List.range (cs.length + 1)).find? (fun r => replicasCandidate cs q r)

/-- Whitespace-run lengths `k` for which `NAME:` occurs at `p + k`,
longest first (`\s*` before the name is greedy). -/
def kCandidates (cs name : Chars) (p : Nat) : List Nat :=
  ((List.range (wsRunAt cs p + 1)).reverse).filter
    (fun k => matchesAt cs (name ++ [':']) (p + k))

/-- Try a full pattern match anchored at line start `p`; on success,
return the start and end of the digit group (group 2). -/
def matchAt (cs name : Chars) (p : Nat) : Option (Nat × Nat) :=
  (kCandidates cs name p).findSome? (fun k =>
    (findR cs (p + k + name.length + 1)).map (fun r =>
      let ds := r + 9 + wsRunAt cs (r + 9)
      (ds, ds + digitRunAt cs ds)))

/-- Leftmost match whose start is at or after `pos`. -/
def findMatchFrom (cs name : Chars) (pos : Nat) : Option (Nat × Nat) :=
  (List.range (cs.length + 1)).findSome? (fun p =>
    if pos ≤ p ∧ isLineStart cs p = true then matchAt cs name p else none)

/-- All matches of `replace_all`, scanning resumes at each match end.
`fuel` only bounds the recursion; every match ends strictly beyond its
own start, so `cs.length + 1` steps always suffice. -/
def matchListGo (cs name : Chars) : Nat → Nat → List (Nat × Nat)
  | 0, _ => []
  | Nat.succ f, pos =>
      match findMatchFrom cs name pos with
      | none => []
      | some (ds, de) => (ds, de) :: matchListGo cs name f de

/-- The digit groups replaced by `replace_all`, in document order. -/
def matchList (cs name : Chars) : List (Nat × Nat) :=
  matchListGo cs name (cs.length + 1) 0

/-- Replace each digit group `(ds, de)` with `newVal`; `base` is the
original-document index of the head of `cs`. -/
def spliceGo (newVal : Chars) : Chars → Nat → List (Nat × Nat) → Chars
  | cs, _, [] => cs
  | cs, base, (ds, de) :: rest =>
      (cs.take (ds - base)) ++ newVal ++ spliceGo newVal (cs.drop (de - base)) de rest

/-- Decimal rendering of the new replica count (`format!("{}", n)`). -/
def natDigits (n : Nat) : Chars := (Nat.repr n).data

/-- `update_app_replicas` from `traefik_helper.rs`.  `none` = the file
does not exist.  Returns the rewritten document on success; the three
`NotFound` error paths of the source are the three `error` cases. -/
def update_app_replicas (file : Option Chars) (name : Chars) (n : Nat) :
    Except String Chars :=
  match file with
  | none => Except.error "The file nephelios.yml does not exist"
  | some content =>
      if strContains content (name ++ [':']) = false then
        Except.error "Application not found in the file nephelios.yml"
      else
        match matchList content name with
        | [] => Except.error "Pattern replicas: not found for the application"
        | ms => Except.ok (spliceGo (natDigits n) content 0 ms)

/-- The hard-coded rewrite target of `modify_github_url`
(`github_helper.rs`). -/
def userMarker : Chars := S "https://damien-mathieu1@github.com/"

/-- The searched-for marker of `modify_github_url`. -/
def ghMarker : Chars := S "https://github.com/"

/-- `modify_github_url` from `github_helper.rs`: if the URL contains
`https://github.com/` (first occurrence, `str::find`), replace everything
up to and including that occurrence with the hard-coded
`https://damien-mathieu1@github.com/`; otherwise return it unchanged. -/
def modify_github_url (u : Chars) : Chars :=
  match firstOccur? ghMarker u with
  | some pos => userMarker ++ u.drop (pos + ghMarker.length)
  | none => u

/-- The URL `clone_repo` actually passes to `git clone`: it first applies
`modify_github_url` to its argument. -/
def clone_repo_url (u : Chars) : Chars := modify_github_url u

/-- The workspace directory created by `create_temp_dir`
(`github_helper.rs`), relative to the user's home directory. -/
def temp_dir_path (name : String) : String :=
  ".cache/nephelios/." ++ name ++ "-tmp"

/-!
Status event bus (`websocket.rs` and `main.rs`).  `main.rs` creates
`broadcast::channel(32)`.  The status-forwarding task of
`handle_ws_connection` is

  `while let Ok(status) = status_rx.recv().await { tx.send(...) }`

A tokio broadcast receiver that has fallen more than the channel capacity
behind the send position gets `Err(RecvError::Lagged(n))` from `recv`;
the `while let Ok` pattern treats that exactly like a closed channel and
leaves the loop.  The model below runs the loop over a finished sequence
of emitted events: `p` is the subscriber's read position, and the result
is the list of events the loop forwards to the websocket before it stops
(or before it would await new events).
-/

/-- Capacity of the status broadcast channel (`broadcast::channel(32)` in
`main.rs`). -/
def statusChannelCapacity : Nat := 32

/-- Fuel-indexed worker for `forwardEvents`; the fuel only bounds the
recursion and `events.length - p + 1` steps always suffice. -/
def forwardEventsGo (cap : Nat) (events : List Nat) : Nat → Nat → List Nat
  | _, 0 => []
  | p, Nat.succ f =>
      if p < events.length then
        if events.length - p > cap then []
        else events.getD p 0 :: forwardEventsGo cap events (p + 1) f
      else []

/-- The `while let Ok(status) = status_rx.recv()` loop of
`handle_ws_connection`, for a subscriber whose read position is `p` on a
channel of capacity `cap` carrying the finished event sequence `events`:
forwards events one by one, and terminates — forwarding nothing further,
in particular no lag indicator — as soon as `recv` returns
`Err(Lagged(_))`, i.e. when more than `cap` events lie beyond `p`. -/
def forwardEvents (cap : Nat) (events : List Nat) (p : Nat) : List Nat :=
  forwardEventsGo cap events p (events.length - p + 1)

/-!
Interleaving model for the manifest store's file operations.  Each store
operation is a sequence of atomic file-system actions:

- `add_to_deploy` opens the manifest with `append(true).create(true)` and
  performs one `write_all` — a single atomic append;
- `remove_app_compose` (and `update_app_replicas`) read the whole file,
  compute, then truncate-and-write the whole file — two atomic actions
  with the written content computed from the earlier read.

No lock of any kind appears in `traefik_helper.rs` or around its call
sites, so actions of concurrent operations may interleave arbitrarily.
-/

/-- One atomic file-system action of a manifest-store operation. -/
inductive OpAct where
  | opRead
  | opWriteWith (f : Chars → Chars)
  | opAppend (s : Chars)

/-- An in-flight operation: remaining actions plus the content its last
read returned. -/
abbrev OpState := List OpAct × Option Chars

/-- Run one atomic action of an operation against the shared file. -/
def stepMachine (file : Chars) : OpState → Chars × OpState
  | (OpAct.opRead :: rest, _) => (file, (rest, some file))
  | (OpAct.opWriteWith f :: rest, buf) => (f (buf.getD []), (rest, buf))
  | (OpAct.opAppend s :: rest, buf) => (file ++ s, (rest, buf))
  | ([], buf) => (file, ([], buf))

/-- Interleave two operations under an explicit schedule (`true` = step
the first operation, `false` = step the second); returns the final file
content. -/
def runTwo (sched : List Bool) (file : Chars) (m1 m2 : OpState) : Chars :=
  match sched with
  | [] => file
  | b :: bs =>
      if b then
        let s := stepMachine file m1
        runTwo bs s.1 s.2 m2
      else
        let s := stepMachine file m2
        runTwo bs s.1 m1 s.2

/-- The atomic actions of `add_to_deploy` (one atomic append). -/
def addOp (app port : Chars) (md : AppMetadata) : List OpAct :=
  [OpAct.opAppend (renderBlock app port md)]

/-- The atomic actions of `remove_app_compose` (read whole file, then
truncate-and-write the content computed from that read). -/
def removeOp (name : Chars) : List OpAct :=
  [OpAct.opRead, OpAct.opWriteWith (remove_app_compose name)]

/-!
The deployment pipeline (`handle_create_app` in `routes.rs`).  The
handler immediately wraps the ENTIRE body of the work — including the
`github_url` validation — in `tokio::spawn` and returns
`("Deployment Job has been created !", 201 CREATED)` to the HTTP caller;
the `Ok`/`Err` value produced inside the spawned task is discarded.  The
spawned job is modelled as a straight-line function of the request body,
the outcomes of the external collaborators, and the manifest file state.
-/

/-- The JSON body of a `/create` request as `handle_create_app` reads it:
each field is `body.get(..).and_then(Value::as_str)` (`none` = absent or
not a string).  `additionalInputs` and the command/workdir overrides only
feed the external Dockerfile generator and carry no observable effect in
the model. -/
structure CreateBody where
  app_name : Option String
  app_type : Option String
  github_url : Option String
  install_command : Option String
  run_command : Option String
  build_command : Option String
  app_workdir : Option String
deriving DecidableEq

/-- `app_name` resolution: `unwrap_or("default-app")`. -/
def resolvedName (b : CreateBody) : String := b.app_name.getD "default-app"

/-- `app_type` resolution: `unwrap_or("nodejs")`. -/
def resolvedAppType (b : CreateBody) : String := b.app_type.getD "nodejs"

/-- Outcomes of the external collaborators for one job run.  `none`
means the call succeeded, `some e` that it failed with message `e`.
`buildErr`/`pushErr` are the error paths `build_image`/`push_image`
actually propagate (daemon connection, tar context, image tag); the
`...StreamErrors` lists are the per-item errors reported on the Docker
build and push streams, which both functions only PRINT — see
`build_image_outcome`/`push_image_outcome`.  `now` is the wall-clock
time used for `created_at`. -/
structure ExtOutcomes where
  tempDirErr : Option String
  cloneErr : Option String
  dockerfileErr : Option String
  buildErr : Option String
  buildStreamErrors : List String
  pushErr : Option String
  pushStreamErrors : List String
  deployErr : Option String
  now : String
deriving DecidableEq

/-- `build_image` (`docker_helper.rs`): returns `Err` only for daemon
connection and tar-context failures; error items on the build stream are
printed to stderr inside the `while let Some(build_result)` loop and the
function then returns `Ok(())` regardless. -/
def build_image_outcome (connectTarErr : Option String)
    (_streamErrors : List String) : Except String Unit :=
  match connectTarErr with
  | some e => Except.error e
  | none => Except.ok ()

/-- `push_image` (`docker_helper.rs`): returns `Err` only for daemon
connection and `tag_image` failures; error items on the push stream are
printed and the function returns `Ok(())` regardless. -/
def push_image_outcome (connectTagErr : Option String)
    (_streamErrors : List String) : Except String Unit :=
  match connectTagErr with
  | some e => Except.error e
  | none => Except.ok ()

/-- One `send_deployment_status` emission: app name, status severity,
step message. -/
structure Ev where
  name : String
  status : String
  step : String
deriving DecidableEq

/-- The value the spawned task returns (it is discarded by
`tokio::spawn`): a `400 Bad Request` reply, a `201 Created` reply, or a
warp rejection. -/
inductive JobOutcome where
  | replyBad
  | replyCreated
  | rejected (msg : String)
deriving DecidableEq

/-- Observable result of one spawned deployment job: the events emitted
on the status bus in order, whether the workspace directory was ever
created, the final manifest file state, and the (discarded) task
return value. -/
structure JobTrace where
  events : List Ev
  wsCreated : Bool
  file : Option Chars
  outcome : JobOutcome
deriving DecidableEq

/-- The spawned deployment job of `handle_create_app` (`routes.rs`,
the `tokio::spawn` body), as a function of the request body, the
external outcomes and the initial manifest file state.  Mirrors the
source order: defaulted field extraction; `github_url` validation (one
error event, then a 400 reply that goes nowhere); temp dir; clone;
Dockerfile; build (stream errors ignored by `build_image_outcome`);
push (on failure: return with NO status event); the
`if let Ok(1) = verif_app(..)` update/create split; deploy; final
success and `deployed` events.  Two I/O corner cases of the source are
not reachable in the model: the non-UTF-8 `temp_dir.to_str()` branch
(paths here are strings), and an I/O failure of `add_to_deploy`'s
append itself (the file is modelled as always writable). -/
def runJob (body : CreateBody) (ext : ExtOutcomes) (file0 : Option Chars) :
    JobTrace :=
  let name := resolvedName body
  let type := resolvedAppType body
  match body.github_url with
  | none =>
      ⟨[⟨name, "error", "GitHub URL is required"⟩], false, file0, JobOutcome.replyBad⟩
  | some url =>
      if url = "" then
        ⟨[⟨name, "error", "GitHub URL is required"⟩], false, file0, JobOutcome.replyBad⟩
      else
        let md := AppMetadata.new (S name) (S type) (S url) (S ext.now)
        let ev0 : List Ev := [⟨name, "in_progress", "Cloning repository"⟩]
        match ext.tempDirErr with
        | some e =>
            ⟨ev0 ++ [⟨name, "error", "Failed to create temp directory: " ++ e⟩],
             false, file0, JobOutcome.rejected ("Failed to create temp directory: " ++ e)⟩
        | none =>
        match ext.cloneErr with
        | some e =>
            ⟨ev0 ++ [⟨name, "error", "Failed to clone repository: " ++ e⟩],
             true, file0, JobOutcome.rejected ("Failed to clone repository: " ++ e)⟩
        | none =>
        match ext.dockerfileErr with
        | some e =>
            ⟨ev0 ++ [⟨name, "error", "Failed to generate Dockerfile: " ++ e⟩],
             true, file0, JobOutcome.rejected ("Failed to generate Dockerfile: " ++ e)⟩
        | none =>
        let ev1 := ev0 ++ [⟨name, "success", "Cloning repository"⟩,
                           ⟨name, "in_progress", "Building Docker image"⟩]
        match build_image_outcome ext.buildErr ext.buildStreamErrors with
        | Except.error e =>
            ⟨ev1 ++ [⟨name, "error", "Failed to build Docker image: " ++ e⟩],
             true, file0, JobOutcome.rejected ("Failed to build Docker image: " ++ e)⟩
        | Except.ok _ =>
        let ev2 := ev1 ++ [⟨name, "success", "Building Docker image"⟩]
        match push_image_outcome ext.pushErr ext.pushStreamErrors with
        | Except.error e =>
            ⟨ev2, true, file0, JobOutcome.rejected ("Failed to push Docker image: " ++ e)⟩
        | Except.ok _ =>
        let ev3 := ev2 ++ [⟨name, "in_progress", "Starting deployment"⟩]
        match verif_app file0 (S name) with
        | Except.ok 1 =>
            match ext.deployErr with
            | some e =>
                ⟨ev3 ++ [⟨name, "error", "Failed to update deployment: " ++ e⟩],
                 true, file0, JobOutcome.rejected ("Failed to execute docker compose: " ++ e)⟩
            | none =>
                ⟨ev3 ++ [⟨name, "success", "Starting deployment"⟩,
                         ⟨name, "deployed", "deployed_info"⟩],
                 true, file0, JobOutcome.replyCreated⟩
        | _ =>
            let file1 := add_to_deploy file0 (S name) (S "3000") md
            match ext.deployErr with
            | some e =>
                ⟨ev3 ++ [⟨name, "error", "Failed to start deployment: " ++ e⟩],
                 true, file1, JobOutcome.rejected ("Failed to execute docker compose: " ++ e)⟩
            | none =>
                ⟨ev3 ++ [⟨name, "success", "Starting deployment"⟩,
                         ⟨name, "deployed", "deployed_info"⟩],
                 true, file1, JobOutcome.replyCreated⟩

/-- The synchronous HTTP behaviour of `handle_create_app`: the handler
spawns the job and unconditionally replies
`("Deployment Job has been created !", StatusCode::CREATED)` — status
201 for every body, valid or not. -/
def handle_create_app_status (_body : CreateBody) : Nat := 201

/-- The event sequence of a fully successful job for app `n` (in source
order). -/
def successEvents (n : String) : List Ev :=
  [⟨n, "in_progress", "Cloning repository"⟩,
   ⟨n, "success", "Cloning repository"⟩,
   ⟨n, "in_progress", "Building Docker image"⟩,
   ⟨n, "success", "Building Docker image"⟩,
   ⟨n, "in_progress", "Starting deployment"⟩,
   ⟨n, "success", "Starting deployment"⟩,
   ⟨n, "deployed", "deployed_info"⟩]

/-!
Concrete instances used by the theorems below.
-/

/-- All external collaborators succeed. -/
def extOk : ExtOutcomes :=
  ⟨none, none, none, none, [], none, [], none, "2025-01-01T00:00:00Z"⟩

/-- A well-formed `/create` body for app `demo`. -/
def bodyDemo : CreateBody :=
  ⟨some "demo", some "nodejs", some "https://github.com/u/r", none, none, none, none⟩

/-- A `/create` body with every field absent (in particular no
`github_url` and no `app_name`). -/
def bodyNoUrl : CreateBody := ⟨none, none, none, none, none, none, none⟩

/-- Metadata of the `demo` app as `handle_create_app` builds it. -/
def mdDemo : AppMetadata :=
  AppMetadata.new (S "demo") (S "nodejs") (S "https://github.com/u/r")
    (S "2025-01-01T00:00:00Z")

/-- A manifest that already carries the `demo` block. -/
def docDemo : Chars := S "services:\n" ++ renderBlock (S "demo") (S "3000") mdDemo

/-- External outcomes where the Docker build stream reports an error
item (a failing build) while everything else succeeds. -/
def extBuildStreamFail : ExtOutcomes :=
  { extOk with
      buildStreamErrors := ["The command npm install returned a non-zero code: 1"] }

/-- External outcomes where `push_image` fails at its `tag_image` step. -/
def extPushFail : ExtOutcomes :=
  { extOk with pushErr := some "Failed to tag image: connection refused" }

/-- A manifest whose ONLY block is keyed `app2` (a strict superstring of
`app`). -/
def docApp2 : Chars :=
  S "services:\n" ++ renderBlock (S "app2") (S "3000")
    (AppMetadata.new (S "app2") (S "nodejs") (S "https://github.com/u/r") (S "t0"))

/-- A manifest where the block `app` has NO `replicas:` field while the
later block `other` has one. -/
def docNoReplicas : Chars := S "  app:\n    image: x\n  other:\n    replicas: 4\n"

/-- A manifest where both blocks carry a `replicas:` field. -/
def docGoodReplicas : Chars := S "  app:\n    replicas: 1\n  other:\n    replicas: 4\n"

/-- A manifest where the block `app` is immediately followed by the
block `other`, with no blank separator line between them. -/
def docAdjacent : Chars := S "services:\n  app:\n    image: x\n  other:\n    image: y\n"

/-- Metadata for apps `a` and `b` of the concurrency scenario. -/
def mdA : AppMetadata :=
  AppMetadata.new (S "a") (S "nodejs") (S "https://github.com/u/a") (S "t1")

/-- Metadata for app `b`. -/
def mdB : AppMetadata :=
  AppMetadata.new (S "b") (S "nodejs") (S "https://github.com/u/b") (S "t0")

/-- A manifest carrying the block `b` only. -/
def docB : Chars := S "services:\n" ++ renderBlock (S "b") (S "3000") mdB

/-!
Helper lemmas.
-/

theorem firstOccur_isPrefixOf (pat : Chars) :
    ∀ (s : Chars) (pos : Nat), firstOccur? pat s = some pos →
      pat.isPrefixOf (s.drop pos) = true := by
  intro s
  induction s with
  | nil =>
      intro pos h
      unfold firstOccur? at h
      by_cases hp : pat.isPrefixOf ([] : Chars) = true
      · simp only [hp, if_true] at h
        cases h
        simpa using hp
      · simp only [hp] at h
        simp at h
  | cons c t ih =>
      intro pos h
      unfold firstOccur? at h
      by_cases hp : pat.isPrefixOf (c :: t) = true
      · simp only [hp, if_true] at h
        cases h
        simpa using hp
      · simp only [hp, if_false, Bool.false_eq_true] at h
        rcases Option.map_eq_some'.mp h with ⟨m, hm, hmp⟩
        subst hmp
        simpa using ih m hm

theorem firstOccur_decomp (pat s : Chars) (pos : Nat)
    (h : firstOccur? pat s = some pos) :
    s = s.take pos ++ pat ++ s.drop (pos + pat.length) := by
  have hpre : pat <+: s.drop pos :=
    List.isPrefixOf_iff_prefix.mp (firstOccur_isPrefixOf pat s pos h)
  rcases hpre with ⟨t, ht⟩
  have htail : t = s.drop (pos + pat.length) := by
    have h2 := congrArg (List.drop pat.length) ht
    rw [List.drop_left] at h2
    rw [List.drop_drop] at h2
    exact h2
  calc s = s.take pos ++ s.drop pos := (List.take_append_drop pos s).symm
    _ = s.take pos ++ (pat ++ t) := by rw [ht]
    _ = s.take pos ++ pat ++ s.drop (pos + pat.length) := by
          rw [htail, List.append_assoc]

/-- C9: for every source URL containing `https://github.com/`, the URL
`clone_repo` passes to `git clone` is not the given URL: it is the
hard-coded `https://damien-mathieu1@github.com/` followed by what
follows the (first) occurrence of `https://github.com/`; URLs without
that marker are used unchanged. -/
theorem clone_repo_url_rewrite (u : Chars) :
    (strContains u ghMarker = true →
      (∃ A B, u = A ++ ghMarker ++ B ∧ clone_repo_url u = userMarker ++ B) ∧
      clone_repo_url u ≠ u) ∧
    (strContains u ghMarker = false → clone_repo_url u = u) := by
  constructor
  · intro h
    rcases Option.isSome_iff_exists.mp h with ⟨pos, hpos⟩
    have hdec := firstOccur_decomp ghMarker u pos hpos
    have hurl : clone_repo_url u = userMarker ++ u.drop (pos + ghMarker.length) := by
      unfold clone_repo_url modify_github_url
      rw [hpos]
    refine ⟨⟨u.take pos, u.drop (pos + ghMarker.length), hdec, hurl⟩, ?_⟩
    intro heq
    rw [hurl] at heq
    have hmarker : ghMarker.length = 19 := by decide
    have huser : userMarker.length = 35 := by decide
    have hA : (u.take pos).length = 16 := by
      have h2 := congrArg List.length hdec
      simp only [List.length_append] at h2
      have hlen := congrArg List.length heq
      simp only [List.length_append] at hlen
      rw [huser] at hlen
      simp only [hmarker] at h2 hlen
      omega
    have h16 := congrArg (fun l : Chars => l[16]?) heq
    simp only at h16
    have hL : (userMarker ++ u.drop (pos + ghMarker.length))[16]? =
        userMarker[16]? := by
      apply List.getElem?_append_left
      rw [huser]; omega
    have hR : u[16]? = ghMarker[0]? := by
      conv_lhs => rw [hdec]
      rw [List.append_assoc]
      rw [List.getElem?_append_right (by omega : (u.take pos).length ≤ 16)]
      rw [hA]
      rw [List.getElem?_append_left (by decide : 16 - 16 < ghMarker.length)]
    rw [hL, hR] at h16
    have hav : userMarker[16]? = some 'a' := by decide
    have h0 : ghMarker[0]? = some 'h' := by decide
    rw [hav] at h16
    rw [h0] at h16
    simp at h16
  · intro h
    have hnone : firstOccur? ghMarker u = none := by
      unfold strContains at h
      exact Option.not_isSome_iff_eq_none.mp (by simp [h])
    unfold clone_repo_url modify_github_url
    rw [hnone]

/-- Witness for C9 at the concrete URLs `https://github.com/user/repo`
(rewritten) and `git@host/x` (unchanged). -/
theorem clone_repo_url_rewrite_witness :
    ((∃ A B, S "https://github.com/user/repo" = A ++ ghMarker ++ B ∧
        clone_repo_url (S "https://github.com/user/repo") = userMarker ++ B) ∧
      clone_repo_url (S "https://github.com/user/repo") ≠
        S "https://github.com/user/repo") ∧
    clone_repo_url (S "git@host/x") = S "git@host/x" :=
  ⟨(clone_repo_url_rewrite (S "https://github.com/user/repo")).1 (by decide),
   (clone_repo_url_rewrite (S "git@host/x")).2 (by decide)⟩

theorem linesAux_cons (cur : Chars) (c : Char) (rest : Chars) :
    linesAux cur (c :: rest) =
      if c = '\n' then emitLine cur :: linesAux [] rest
      else linesAux (c :: cur) rest := rfl

theorem linesAux_push (l : Chars) (hl : ¬ '\n' ∈ l) :
    ∀ (cur rest : Chars), linesAux cur (l ++ rest) = linesAux (l.reverse ++ cur) rest := by
  induction l with
  | nil => intro cur rest; simp
  | cons c t ih =>
      intro cur rest
      have hc : ¬ (c = '\n') := fun h => hl (by rw [h] at *; exact List.mem_cons_self _ _)
      have ht : ¬ '\n' ∈ t := fun h => hl (List.mem_cons_of_mem c h)
      show linesAux cur (c :: (t ++ rest)) = linesAux ((c :: t).reverse ++ cur) rest
      rw [linesAux_cons, if_neg hc]
      rw [ih ht (c :: cur) rest]
      congr 1
      simp [List.reverse_cons, List.append_assoc]

theorem emitLine_reverse (l : Chars) (h : l.getLast? ≠ some '\r') :
    emitLine l.reverse = l := by
  unfold emitLine
  rw [List.head?_reverse]
  rw [if_neg h]
  exact List.reverse_reverse l

theorem rustLines_joinLF (ls : List Chars)
    (h : ∀ l ∈ ls, ¬ '\n' ∈ l ∧ l.getLast? ≠ some '\r') :
    rustLines (joinLF ls) = ls := by
  induction ls with
  | nil => rfl
  | cons l ls ih =>
      obtain ⟨h1, h2⟩ := h l (List.mem_cons_self l ls)
      have hrest := fun m hm => h m (List.mem_cons_of_mem l hm)
      show rustLines (l ++ '\n' :: joinLF ls) = l :: ls
      unfold rustLines
      rw [linesAux_push l h1]
      simp only [List.append_nil]
      rw [linesAux_cons, if_pos rfl]
      rw [emitLine_reverse l h2]
      have ih2 := ih hrest
      unfold rustLines at ih2
      rw [ih2]

theorem header_prefix_twoSpace (name l : Chars)
    (h : (headerOf name).isPrefixOf l = true) : twoSpace l = true := by
  cases l with
  | nil => simp [headerOf, List.isPrefixOf] at h
  | cons c t =>
      cases t with
      | nil => simp [headerOf, List.isPrefixOf] at h
      | cons c2 t2 =>
          simp [headerOf, List.isPrefixOf] at h
          obtain ⟨hc, hc2, _⟩ := h
          have hS : S "  " = [' ', ' '] := rfl
          simp [twoSpace, hS, List.isPrefixOf]
          exact ⟨hc, hc2⟩

theorem removeGo_cons (name : Chars) (inServ : Bool) (l : Chars) (ls : List Chars) :
    removeGo name inServ (l :: ls) =
      if twoSpace l && inServ then removeGo name inServ ls
      else if (headerOf name).isPrefixOf l then removeGo name true ls
      else if !(twoSpace l) then l :: removeGo name false ls
      else l :: removeGo name inServ ls := rfl

theorem removeGo_keep (name : Chars) (X Y : List Chars)
    (h : ∀ l ∈ X, (headerOf name).isPrefixOf l = false) :
    removeGo name false (X ++ Y) = X ++ removeGo name false Y := by
  induction X with
  | nil => rfl
  | cons l X ih =>
      have hl := h l (List.mem_cons_self l X)
      have hX := fun m hm => h m (List.mem_cons_of_mem l hm)
      show removeGo name false (l :: (X ++ Y)) = l :: (X ++ removeGo name false Y)
      rw [removeGo_cons]
      simp only [Bool.and_false, if_false, Bool.false_eq_true]
      rw [hl]
      simp only [Bool.false_eq_true, if_false]
      rw [ih hX]
      simp [ite_self]

theorem removeGo_skip (name : Chars) (B Y : List Chars)
    (h : ∀ l ∈ B, twoSpace l = true) :
    removeGo name true (B ++ Y) = removeGo name true Y := by
  induction B with
  | nil => rfl
  | cons l B ih =>
      have hl := h l (List.mem_cons_self l B)
      have hB := fun m hm => h m (List.mem_cons_of_mem l hm)
      show removeGo name true (l :: (B ++ Y)) = removeGo name true Y
      rw [removeGo_cons]
      rw [hl]
      simp only [Bool.true_and, if_true]
      exact ih hB

/-- C5 (amended): `Remove(name)` never fails with `NotFound` — it always
succeeds and rewrites the document.  When the block header `"  name:"`
is present it deletes the header line and every following line starting
with two spaces, stopping at (and keeping) the first line `t` that does
not start with two spaces; ALL preceding lines `P` — including whole
preceding blocks, anything not starting with the removed header — and
all following lines `R` (none starting with the removed header) are
preserved byte-for-byte. -/
theorem remove_app_compose_extent (name : Chars) (P B R : List Chars) (t : Chars)
    (hwf : ∀ l ∈ P ++ headerOf name :: (B ++ t :: R),
      ¬ '\n' ∈ l ∧ l.getLast? ≠ some '\r')
    (hP : ∀ l ∈ P, (headerOf name).isPrefixOf l = false)
    (hB : ∀ l ∈ B, twoSpace l = true)
    (ht : twoSpace t = false)
    (hR : ∀ l ∈ R, (headerOf name).isPrefixOf l = false) :
    remove_app_compose name (joinLF (P ++ headerOf name :: (B ++ t :: R))) =
      joinLF (P ++ t :: R) := by
  unfold remove_app_compose
  rw [rustLines_joinLF _ hwf]
  rw [removeGo_keep name P _ hP]
  congr 1
  have hhdr : (headerOf name).isPrefixOf (headerOf name) = true :=
    List.isPrefixOf_iff_prefix.mpr (List.prefix_refl _)
  rw [removeGo_cons]
  simp only [Bool.and_false, Bool.false_eq_true, if_false]
  rw [hhdr]
  simp only [if_true]
  rw [removeGo_skip name B _ hB]
  have htn : (headerOf name).isPrefixOf t = false := by
    cases hb : (headerOf name).isPrefixOf t with
    | false => rfl
    | true =>
        have := header_prefix_twoSpace name t hb
        rw [ht] at this
        exact absurd this (by simp)
  rw [removeGo_cons]
  rw [ht, htn]
  simp only [Bool.false_and, Bool.false_eq_true, if_false, Bool.not_false, if_true]
  congr 1
  have h2 := removeGo_keep name R [] hR
  rw [List.append_nil] at h2
  rw [h2]
  have hnil : removeGo name false [] = [] := rfl
  rw [hnil, List.append_nil]

/-- Witness for C5 at a concrete document: removing `app` from a
document with blocks `first`, `app` and `other` (blank-line separated)
keeps `services:`, the whole preceding `first` block and the following
`other` block byte-for-byte. -/
theorem remove_app_compose_extent_witness :
    remove_app_compose (S "app")
        (S "services:\n  first:\n    image: z\n\n  app:\n    image: x\n\n  other:\n    image: y\n") =
      S "services:\n  first:\n    image: z\n\n\n  other:\n    image: y\n" := by
  have h := remove_app_compose_extent (S "app")
    [S "services:", S "  first:", S "    image: z", S ""] [S "    image: x"]
    [S "  other:", S "    image: y"] []
    (by decide) (by decide) (by decide) (by decide) (by decide)
  exact h

/-- C5 counterexample: (a) on a document whose blocks `app` and `other`
are adjacent (no blank separator), removing `app` also deletes the whole
`other` block, so `other` is NOT left byte-identical; (b) removing an
absent name does not fail with `NotFound` — the function has no failure
path and returns the document unchanged. -/
theorem remove_app_compose_counterexample :
    remove_app_compose (S "app") docAdjacent = S "services:\n" ∧
    remove_app_compose (S "zzz") docAdjacent = docAdjacent := by
  constructor
  · decide
  · decide

/-- C1: `verif_app` matches on raw substring containment, not on the
exact block key.  On a manifest whose only block is keyed `app2` — no
line is a block header for `app` (second conjunct) — querying `app`
still returns `Ok(1)` ("already deployed"), where the claim requires
false. -/
theorem verif_app_substring_bug :
    verif_app (some docApp2) (S "app") = Except.ok 1 ∧
    ((rustLines docApp2).all fun l => !((headerOf (S "app")).isPrefixOf l)) = true := by
  constructor
  · decide
  · decide

/-- C6: `update_app_replicas` on a document whose `app` block has NO
`replicas:` field does not fail with `NotFound`: the lazy multi-line
regex crosses the block boundary and rewrites the `replicas:` of the
NEXT block (`other`), leaving `app`'s block untouched (first conjunct).
When `app`'s own block does have a `replicas:` field, only that value is
replaced (second conjunct); an absent name is rejected (third
conjunct). -/
theorem update_replicas_crosses_block :
    update_app_replicas (some docNoReplicas) (S "app") 7 =
      Except.ok (S "  app:\n    image: x\n  other:\n    replicas: 7\n") ∧
    update_app_replicas (some docGoodReplicas) (S "app") 9 =
      Except.ok (S "  app:\n    replicas: 9\n  other:\n    replicas: 4\n") ∧
    update_app_replicas (some docGoodReplicas) (S "zzz") 9 =
      Except.error "Application not found in the file nephelios.yml" := by
  refine ⟨?_, ?_, ?_⟩
  · decide
  · decide
  · decide

/-- C7: the status-forwarding loop of `handle_ws_connection` over the
capacity-32 channel of `main.rs`.  A subscriber that is 33 (or 40)
events behind gets `Err(Lagged)` from `recv`, and the `while let Ok`
loop exits: NOTHING further is forwarded — neither the still-buffered
events nor any "N events dropped" indicator, and delivery never resumes
(first two conjuncts).  A subscriber exactly at capacity still receives
everything in emission order (third conjunct). -/
theorem ws_lagged_subscriber_silenced :
    forwardEvents statusChannelCapacity (List.range 33) 0 = [] ∧
    forwardEvents statusChannelCapacity (List.range 40) 0 = [] ∧
    forwardEvents statusChannelCapacity (List.range 32) 0 = List.range 32 := by
  refine ⟨?_, ?_, ?_⟩
  · decide
  · decide
  · decide

/-- C8: the manifest store has no mutation lock, and an interleaving of
`remove_app_compose("b")` (read, then write) with `add_to_deploy("a")`
(one atomic append placed between the read and the write) loses the
appended `a` block: the final document contains no `"  a:"` header
(first two conjuncts), although either serial order of the same two
operations keeps it (last two conjuncts). -/
theorem manifest_mutations_lost_update :
    runTwo [false, true, false] docB (addOp (S "a") (S "3000") mdA, none)
        (removeOp (S "b"), none) = S "services:\n\n" ∧
    strContains (S "services:\n\n") (S "  a:") = false ∧
    strContains (remove_app_compose (S "b")
      (docB ++ renderBlock (S "a") (S "3000") mdA)) (S "  a:") = true ∧
    strContains (remove_app_compose (S "b") docB ++
      renderBlock (S "a") (S "3000") mdA) (S "  a:") = true := by
  refine ⟨?_, ?_, ?_, ?_⟩
  · decide
  · decide
  · decide
  · decide

set_option maxRecDepth 100000 in
/-- C2 counterexample: a second deployment of `demo` (manifest already
contains the `demo` block) does NOT fail with `AlreadyExists`: the
pipeline takes the update branch (no append), emits the full success
sequence ending in `deployed` — no error-severity event at all — and
returns the 201 reply. -/
theorem second_add_counterexample :
    runJob bodyDemo extOk (some docDemo) =
      ⟨successEvents "demo", true, some docDemo, JobOutcome.replyCreated⟩ ∧
    ((runJob bodyDemo extOk (some docDemo)).events.all
      fun e => !(e.status == "error")) = true := by
  constructor
  · decide
  · decide

/-- C2 (amended): when the manifest already contains the app name (so
`verif_app` answers 1), a second deployment run leaves the manifest
bytes unchanged — `add_to_deploy` is never reached — and does not fail:
with the external collaborators succeeding it completes with the full
success event sequence and the 201 reply. -/
theorem second_add_skips_append (body : CreateBody) (ext : ExtOutcomes)
    (c : Chars) (u : String)
    (hu : body.github_url = some u) (hne : u ≠ "")
    (h1 : ext.tempDirErr = none) (h2 : ext.cloneErr = none)
    (h3 : ext.dockerfileErr = none) (h4 : ext.buildErr = none)
    (h5 : ext.pushErr = none) (h6 : ext.deployErr = none)
    (hc : strContains c (S (resolvedName body)) = true) :
    runJob body ext (some c) =
      ⟨successEvents (resolvedName body), true, some c, JobOutcome.replyCreated⟩ := by
  simp only [runJob, hu]
  rw [if_neg hne]
  simp only [h1, h2, h3, h4, h5, h6, build_image_outcome, push_image_outcome,
    verif_app, hc, if_true, successEvents]
  rfl

/-- Witness for C2 at the concrete `demo` instance. -/
theorem second_add_skips_append_witness :
    runJob bodyDemo extOk (some docDemo) =
      ⟨successEvents (resolvedName bodyDemo), true, some docDemo,
       JobOutcome.replyCreated⟩ :=
  second_add_skips_append bodyDemo extOk docDemo "https://github.com/u/r"
    rfl (by decide) rfl rfl rfl rfl rfl rfl (by decide)

/-- C3 counterexample: for the `/create` body with `github_url` (and
`app_name`) absent, the synchronous HTTP reply is 201 Created — not the
400 the claim requires — because the whole validation runs inside
`tokio::spawn`; the spawned job then emits one error event and creates
no workspace. -/
theorem create_missing_url_counterexample :
    handle_create_app_status bodyNoUrl = 201 ∧
    ¬ (handle_create_app_status bodyNoUrl = 400) ∧
    (runJob bodyNoUrl extOk (some (S "services:\n"))).events =
      [⟨"default-app", "error", "GitHub URL is required"⟩] ∧
    (runJob bodyNoUrl extOk (some (S "services:\n"))).wsCreated = false := by
  refine ⟨rfl, by decide, by decide, by decide⟩

/-- C3 (amended): every `/create` request is answered 201 synchronously
(the 400 reply built inside the spawned task is discarded).  When
`github_url` is missing or empty the asynchronous job emits exactly one
event — the error event — creates no workspace directory and leaves the
manifest untouched.  A missing `app_name` is NOT rejected (it defaults,
see C10). -/
theorem create_request_validated_asynchronously (body : CreateBody)
    (ext : ExtOutcomes) (file0 : Option Chars)
    (h : body.github_url = none ∨ body.github_url = some "") :
    handle_create_app_status body = 201 ∧
    (runJob body ext file0).events =
      [⟨resolvedName body, "error", "GitHub URL is required"⟩] ∧
    (runJob body ext file0).wsCreated = false ∧
    (runJob body ext file0).file = file0 := by
  rcases h with h | h
  · exact ⟨rfl, by simp [runJob, h], by simp [runJob, h], by simp [runJob, h]⟩
  · exact ⟨rfl, by simp [runJob, h], by simp [runJob, h], by simp [runJob, h]⟩

/-- Witness for C3 at the all-absent body. -/
theorem create_request_validated_asynchronously_witness :
    handle_create_app_status bodyNoUrl = 201 ∧
    (runJob bodyNoUrl extOk (some (S "services:\n"))).events =
      [⟨resolvedName bodyNoUrl, "error", "GitHub URL is required"⟩] ∧
    (runJob bodyNoUrl extOk (some (S "services:\n"))).wsCreated = false ∧
    (runJob bodyNoUrl extOk (some (S "services:\n"))).file = some (S "services:\n") :=
  create_request_validated_asynchronously bodyNoUrl extOk (some (S "services:\n"))
    (Or.inl rfl)

set_option maxRecDepth 100000 in
/-- C4: build and publish failures are not terminal the way the claim
states.  (1) `build_image` swallows error items on the Docker build
stream and returns `Ok`; (2) hence a job whose build stream reported an
error continues through publish, manifest mutation and reconciliation
and ends with the full success sequence — no error event; (3) a failing
`push_image` aborts the job, but silently: the trace ends after the
build-success event with NO error-severity event for the publish step. -/
theorem build_push_failures_not_terminal :
    build_image_outcome none
        ["The command npm install returned a non-zero code: 1"] = Except.ok () ∧
    runJob bodyDemo extBuildStreamFail (some (S "services:\n")) =
      ⟨successEvents "demo", true,
       some (S "services:\n" ++ renderBlock (S "demo") (S "3000") mdDemo),
       JobOutcome.replyCreated⟩ ∧
    runJob bodyDemo extPushFail (some (S "services:\n")) =
      ⟨[⟨"demo", "in_progress", "Cloning repository"⟩,
        ⟨"demo", "success", "Cloning repository"⟩,
        ⟨"demo", "in_progress", "Building Docker image"⟩,
        ⟨"demo", "success", "Building Docker image"⟩], true,
       some (S "services:\n"),
       JobOutcome.rejected
         "Failed to push Docker image: Failed to tag image: connection refused"⟩ := by
  refine ⟨rfl, ?_, ?_⟩
  · decide
  · decide

/-- C10: a `/create` body without `app_name` or `app_type` is never
rejected for the missing field: the job runs with the defaults
`default-app` and `nodejs`, so any two such requests resolve to the same
manifest key and the same workspace directory, and the job proceeds past
validation (its first event is the cloning progress event). -/
theorem create_defaults_shared_target (b1 b2 : CreateBody) (ext : ExtOutcomes)
    (file0 : Option Chars) (u : String)
    (h1n : b1.app_name = none) (h1t : b1.app_type = none)
    (h2n : b2.app_name = none) (h2t : b2.app_type = none)
    (h1u : b1.github_url = some u) (h1e : u ≠ "") :
    resolvedName b1 = "default-app" ∧
    resolvedAppType b1 = "nodejs" ∧
    resolvedName b1 = resolvedName b2 ∧
    resolvedAppType b1 = resolvedAppType b2 ∧
    temp_dir_path (resolvedName b1) = temp_dir_path (resolvedName b2) ∧
    (runJob b1 ext file0).events.head? =
      some ⟨"default-app", "in_progress", "Cloning repository"⟩ := by
  refine ⟨?_, ?_, ?_, ?_, ?_, ?_⟩
  · simp [resolvedName, h1n]
  · simp [resolvedAppType, h1t]
  · simp [resolvedName, h1n, h2n]
  · simp [resolvedAppType, h1t, h2t]
  · simp [resolvedName, h1n, h2n]
  · simp only [runJob, h1u, resolvedName, h1n, Option.getD_none]
    rw [if_neg h1e]
    repeat' split
    all_goals simp

/-- Witness for C10: two concrete bodies with only a `github_url`. -/
theorem create_defaults_shared_target_witness :
    resolvedName ⟨none, none, some "https://github.com/u/r", none, none, none, none⟩ =
      "default-app" ∧
    resolvedAppType ⟨none, none, some "https://github.com/u/r", none, none, none, none⟩ =
      "nodejs" ∧
    resolvedName ⟨none, none, some "https://github.com/u/r", none, none, none, none⟩ =
      resolvedName ⟨none, none, none, none, none, none, none⟩ ∧
    resolvedAppType ⟨none, none, some "https://github.com/u/r", none, none, none, none⟩ =
      resolvedAppType ⟨none, none, none, none, none, none, none⟩ ∧
    temp_dir_path (resolvedName ⟨none, none, some "https://github.com/u/r", none, none, none, none⟩) =
      temp_dir_path (resolvedName ⟨none, none, none, none, none, none, none⟩) ∧
    (runJob ⟨none, none, some "https://github.com/u/r", none, none, none, none⟩ extOk
        (some (S "services:\n"))).events.head? =
      some ⟨"default-app", "in_progress", "Cloning repository"⟩ :=
  create_defaults_shared_target
    ⟨none, none, some "https://github.com/u/r", none, none, none, none⟩
    ⟨none, none, none, none, none, none, none⟩ extOk (some (S "services:\n"))
    "https://github.com/u/r" rfl rfl rfl rfl rfl (by decide)
